import Mathlib

/-!
Verification development for the Tekton pipeline-run collector
(`pkg/cluster/tekton/collector/collector_s3.go`).

Go source constructs are shallowly embedded:
byte slices become `List Nat` (byte values), Go `int` becomes `Int`
where negative intermediate values matter, channels become lists of
delivered events together with close markers, and fallible calls
become `Except`/`Option` results supplied by an abstract environment.
-/

namespace Collector

/-- Go constant `_mb = 1024 * 1024` (1 MiB). -/
def mbConst : Nat := 1024 * 1024

/-- Go constant `_limitSize = _mb * 2.5` (an exact untyped-constant
product in Go, equal to 2621440). -/
def limitSizeConst : Nat := 2621440

/-- The byte content of the Go literal `"......"` appended by
`cutByteInMiddle` (six ASCII dots, value 46). -/
def dotBytes : List Nat := List.replicate 6 46

/-- Embedding of `cutByteInMiddle(data, limit, begin, end)`.
Go returns `data` unchanged when `limit > 0 && len(data) < limit`;
otherwise it evaluates `data[:begin]` and `data[end:]` and concatenates
`data[:begin] ++ "......" ++ data[end:]`.  A Go slice expression
panics when its index is negative or beyond `len(data)`; the panic is
modelled as `none`. -/
def cutByteInMiddle (data : List Nat) (limit bgn endp : Int) : Option (List Nat) :=
  let l : Int := (data.length : Int)
  if 0 < limit ∧ l < limit then
    some data
  else if 0 ≤ bgn ∧ bgn ≤ l ∧ 0 ≤ endp ∧ endp ≤ l then
    some (data.take bgn.toNat ++ dotBytes ++ data.drop endp.toNat)
  else
    none

/-- The exact call made by `Collect` (line 161 of the source):
`cutByteInMiddle(b, _limitSize, _mb, len(b)-_mb)`. -/
def collectCut (data : List Nat) : Option (List Nat) :=
  cutByteInMiddle data (limitSizeConst : Int) (mbConst : Int)
    ((data.length : Int) - (mbConst : Int))

/-- Metadata of the embedded pipeline run, the fields of the Go
`ObjectMeta.PipelineRun` summary that the collector reads
(`Name`, `Pipeline`, `Result`, `StartTime`, `CompletionTime`,
`DurationSeconds`).  Times are embedded as optional opaque strings. -/
structure PipelineRunMeta where
  Name : String
  Pipeline : String
  Result : String
  StartTime : Option String
  CompletionTime : Option String
  DurationSeconds : Int
  deriving DecidableEq, Repr

/-- The fields of the Go `ObjectMeta` structure that the collector
reads. -/
structure ObjectMeta where
  Application : String
  ApplicationID : String
  Cluster : String
  ClusterID : String
  Environment : String
  Operator : String
  CreationTimestamp : String
  PipelineRun : PipelineRunMeta
  deriving DecidableEq, Repr

/-- Embedding of `getPathForPr`: the snapshot key
`fmt.Sprintf("%s/pr/%s-%s/%s-%s/%s", timeStr, Application,
ApplicationID, Cluster, ClusterID, PipelineRun.Name)`.  The month
string `time.Now().Format("200601")` is passed in as `timeStr`. -/
def getPathForPr (timeStr : String) (m : ObjectMeta) : String :=
  timeStr ++ "/pr/" ++ m.Application ++ "-" ++ m.ApplicationID ++ "/" ++
    m.Cluster ++ "-" ++ m.ClusterID ++ "/" ++ m.PipelineRun.Name

/-- Embedding of `getPathForPrLog`: the log key, identical to
`getPathForPr` except for the `pr-log` segment. -/
def getPathForPrLog (timeStr : String) (m : ObjectMeta) : String :=
  timeStr ++ "/pr-log/" ++ m.Application ++ "-" ++ m.ApplicationID ++ "/" ++
    m.Cluster ++ "-" ++ m.ClusterID ++ "/" ++ m.PipelineRun.Name

end Collector

namespace Collector

/-- Claim C2: if the payload is shorter than the 2.5 MiB limit the
call made by `Collect` returns it unchanged; otherwise it returns
`payload[0:1MiB] ++ "......" ++ payload[len-1MiB:]`, whose length is
exactly 1 MiB + 6 + 1 MiB regardless of the original length. -/
theorem c2_truncate (data : List Nat) :
    (data.length < limitSizeConst → collectCut data = some data) ∧
    (limitSizeConst ≤ data.length →
      collectCut data =
        some (data.take mbConst ++ dotBytes ++ data.drop (data.length - mbConst)) ∧
      ∀ res, collectCut data = some res →
        res.length = mbConst + 6 + mbConst) := by
  constructor
  · intro h
    have h' : (data.length : Int) < (limitSizeConst : Int) := by exact_mod_cast h
    simp only [collectCut, cutByteInMiddle]
    rw [if_pos]
    exact ⟨by norm_num [limitSizeConst], h'⟩
  · intro h
    have hmb : mbConst ≤ data.length := by
      simp only [limitSizeConst, mbConst] at h ⊢; omega
    have hnotlt : ¬ ((0:Int) < (limitSizeConst : Int) ∧
        (data.length : Int) < (limitSizeConst : Int)) := by
      push_neg
      intro _
      exact_mod_cast h
    have hbounds : (0:Int) ≤ (mbConst : Int) ∧ (mbConst : Int) ≤ (data.length : Int) ∧
        (0:Int) ≤ (data.length : Int) - (mbConst : Int) ∧
        (data.length : Int) - (mbConst : Int) ≤ (data.length : Int) := by
      refine ⟨by positivity, by exact_mod_cast hmb, by simp; exact_mod_cast hmb, by omega⟩
    have htoNat : ((data.length : Int) - (mbConst : Int)).toNat = data.length - mbConst := by
      omega
    have hval : collectCut data =
        some (data.take mbConst ++ dotBytes ++ data.drop (data.length - mbConst)) := by
      simp only [collectCut, cutByteInMiddle]
      rw [if_neg hnotlt, if_pos hbounds, Int.toNat_natCast, htoNat]
    refine ⟨hval, ?_⟩
    intro res hres
    rw [hval, Option.some.injEq] at hres
    subst hres
    simp only [List.length_append, List.length_take, List.length_drop, dotBytes,
      List.length_replicate]
    omega

/-- Witness for C2 at concrete payloads: a 3-byte payload is below the
limit and returned unchanged, and a payload of 3 MiB is truncated to
exactly 2 MiB + 6 bytes. -/
theorem c2_truncate_witness :
    collectCut [1, 2, 3] = some [1, 2, 3] ∧
    ∀ res, collectCut (List.replicate 3145728 7) = some res →
      res.length = mbConst + 6 + mbConst := by
  constructor
  · exact (c2_truncate [1, 2, 3]).1 (by norm_num [limitSizeConst])
  · exact ((c2_truncate (List.replicate 3145728 7)).2
      (by rw [List.length_replicate]; norm_num [limitSizeConst])).2

/-- Claim C10: with the argument pattern used by `Collect`
(`limit = 2621440`, `begin = 2^20`, `end = len - 2^20`), every slice
access of `cutByteInMiddle` is in bounds (the call never returns the
panic marker `none`), and on the truncation branch
`0 ≤ begin ≤ end ≤ len` holds. -/
theorem c10_cut_in_bounds (data : List Nat) :
    (collectCut data).isSome ∧
    (limitSizeConst ≤ data.length →
      (0:Int) ≤ (mbConst : Int) ∧
      (mbConst : Int) ≤ (data.length : Int) - (mbConst : Int) ∧
      (data.length : Int) - (mbConst : Int) ≤ (data.length : Int)) := by
  constructor
  · by_cases h : data.length < limitSizeConst
    · rw [(c2_truncate data).1 h]; rfl
    · rw [((c2_truncate data).2 (le_of_not_lt h)).1]; rfl
  · intro h
    have h' : (limitSizeConst : Int) ≤ (data.length : Int) := by exact_mod_cast h
    simp only [limitSizeConst, mbConst] at h' ⊢
    omega

/-- Witness for C10: the bound chain holds at a concrete 3 MiB
payload. -/
theorem c10_cut_in_bounds_witness :
    (collectCut (List.replicate 3145728 7)).isSome ∧
    (mbConst : Int) ≤ ((List.replicate 3145728 (7:Nat)).length : Int) - (mbConst : Int) := by
  refine ⟨(c10_cut_in_bounds (List.replicate 3145728 7)).1, ?_⟩
  exact ((c10_cut_in_bounds (List.replicate 3145728 7)).2
    (by rw [List.length_replicate]; norm_num [limitSizeConst])).2.1

end Collector

namespace Collector

/-- The metadata of the end-to-end scenario: run `build-42`,
application `shop` with ID `7`, cluster `prod` with ID `3`. -/
def scenarioMeta : ObjectMeta :=
  { Application := "shop"
    ApplicationID := "7"
    Cluster := "prod"
    ClusterID := "3"
    Environment := "test"
    Operator := "someone"
    CreationTimestamp := "ts"
    PipelineRun :=
      { Name := "build-42"
        Pipeline := "cd"
        Result := "ok"
        StartTime := some "st"
        CompletionTime := some "ct"
        DurationSeconds := 60 } }

/-- Claim C3: storage keys are pure functions of their inputs (two
calls with identical inputs yield identical keys), the snapshot key
and the log key never collide for the same metadata and month, and
the end-to-end scenario yields the expected concrete keys. -/
theorem c3_storage_keys (timeStr : String) (m : ObjectMeta) :
    getPathForPr timeStr m = getPathForPr timeStr m ∧
    getPathForPrLog timeStr m = getPathForPrLog timeStr m ∧
    getPathForPr timeStr m ≠ getPathForPrLog timeStr m ∧
    getPathForPr "202401" scenarioMeta = "202401/pr/shop-7/prod-3/build-42" ∧
    getPathForPrLog "202401" scenarioMeta = "202401/pr-log/shop-7/prod-3/build-42" := by
  refine ⟨rfl, rfl, ?_, by decide, by decide⟩
  intro h
  have hl := congrArg String.length h
  simp only [getPathForPr, getPathForPrLog, String.length_append] at hl
  have h4 : "/pr/".length = 4 := rfl
  have h8 : "/pr-log/".length = 8 := rfl
  rw [h4, h8] at hl
  omega

end Collector

namespace Collector

/-- One element of the tekton log channel, the fields read by
`collectLog` (`l.Task`, `l.Step`, `l.Log`). -/
structure LogLine where
  Task : String
  Step : String
  Log : String
  deriving DecidableEq, Repr

/-- One delivery observed by the merge worker, in arrival order: a
value received from the log channel, the log channel reporting
closed, a value received from the error channel, or the error channel
reporting closed. -/
inductive MergeEvent where
  | line (l : LogLine)
  | closeLog
  | err (e : String)
  | closeErr
  deriving DecidableEq, Repr

/-- The bytes `collectLog` writes to the pipe for one received log
line: `"\n"` when `l.Log == "EOFLOG"` (the sentinel), otherwise
`fmt.Sprintf("[%s : %s] %s\n", l.Task, l.Step, l.Log)`. -/
def formatLogLine (l : LogLine) : String :=
  if l.Log = "EOFLOG" then "\n"
  else "[" ++ l.Task ++ " : " ++ l.Step ++ "] " ++ l.Log ++ "\n"

/-- The bytes `collectLog` writes for one received error-channel
value: `fmt.Sprintf("%s\n", e)`. -/
def formatErrLine (e : String) : String := e ++ "\n"

/-- Embedding of the merge-worker goroutine of `collectLog` (source
lines 325-347).  The Go loop runs while `logC != nil || errC != nil`;
receiving `ok == false` sets the corresponding channel to `nil`.  The
`logOpen`/`errOpen` flags embed the two nil tests, `evs` is the finite
delivery sequence in arrival order, the returned list holds the writes
made to the pipe in order, and the returned Boolean is `true` exactly
when the loop exited and the deferred `w.Close()` ran (a delivery
sequence that ends while a channel is still open leaves the worker
blocked: Boolean `false`). -/
def runWorker (evs : List MergeEvent) (logOpen errOpen : Bool) : List String × Bool :=
  if logOpen = false ∧ errOpen = false then ([], true)
  else
    match evs with
    | [] => ([], false)
    | MergeEvent.line l :: rest =>
      if logOpen then
        let r := runWorker rest logOpen errOpen
        (formatLogLine l :: r.1, r.2)
      else ([], false)
    | MergeEvent.closeLog :: rest =>
      if logOpen then runWorker rest false errOpen else ([], false)
    | MergeEvent.err e :: rest =>
      if errOpen then
        let r := runWorker rest logOpen errOpen
        (formatErrLine e :: r.1, r.2)
      else ([], false)
    | MergeEvent.closeErr :: rest =>
      if errOpen then runWorker rest logOpen false else ([], false)

/-- The full merged text: the concatenation, in order, of everything
the worker wrote to the pipe (what `ioutil.ReadAll` drains in
`collectLog`). -/
def mergedText (evs : List MergeEvent) : String :=
  String.join (runWorker evs true true).1

/-- Code-side per-event contribution to the merged stream: close
markers contribute nothing, received values contribute their
formatted bytes. -/
def eventFormat : MergeEvent → Option String
  | MergeEvent.line l => some (formatLogLine l)
  | MergeEvent.err e => some (formatErrLine e)
  | MergeEvent.closeLog => none
  | MergeEvent.closeErr => none

/-- A delivery sequence is well formed for channel states
`(logOpen, errOpen)` when each channel delivers values only while
open, reports closed exactly once, and the sequence ends once both
channels have closed (a Go channel yields no events after close). -/
inductive ValidFrom : Bool → Bool → List MergeEvent → Prop
  | done : ValidFrom false false []
  | line {eo : Bool} {rest : List MergeEvent} (l : LogLine) :
      ValidFrom true eo rest → ValidFrom true eo (MergeEvent.line l :: rest)
  | closeLog {eo : Bool} {rest : List MergeEvent} :
      ValidFrom false eo rest → ValidFrom true eo (MergeEvent.closeLog :: rest)
  | err {lo : Bool} {rest : List MergeEvent} (e : String) :
      ValidFrom lo true rest → ValidFrom lo true (MergeEvent.err e :: rest)
  | closeErr {lo : Bool} {rest : List MergeEvent} :
      ValidFrom lo false rest → ValidFrom lo true (MergeEvent.closeErr :: rest)

/-- On every well-formed delivery the worker writes exactly the
formatted values in arrival order and then closes the pipe. -/
theorem runWorker_valid {lo eo : Bool} {evs : List MergeEvent}
    (h : ValidFrom lo eo evs) :
    runWorker evs lo eo = (evs.filterMap eventFormat, true) := by
  induction h with
  | done => rfl
  | line l _ ih => simp [runWorker, eventFormat, ih]
  | closeLog _ ih => simp [runWorker, eventFormat, ih]
  | err e _ ih => simp [runWorker, eventFormat, ih]
  | closeErr _ ih => simp [runWorker, eventFormat, ih]

/-- If the log channel never reports closed, the worker never closes
the pipe (the loop condition `logC != nil` stays true). -/
theorem runWorker_stuck_log (evs : List MergeEvent) : ∀ eo : Bool,
    MergeEvent.closeLog ∉ evs → (runWorker evs true eo).2 = false := by
  induction evs with
  | nil => intro eo _; simp [runWorker]
  | cons ev rest ih =>
    intro eo hmem
    have hhead : ev ≠ MergeEvent.closeLog := fun hh => hmem (hh ▸ List.mem_cons_self _ _)
    have hrest : MergeEvent.closeLog ∉ rest := fun hr => hmem (List.mem_cons_of_mem _ hr)
    cases ev with
    | line l => simp [runWorker, ih eo hrest]
    | closeLog => exact absurd rfl hhead
    | err e => cases eo <;> simp [runWorker, ih _ hrest]
    | closeErr => cases eo <;> simp [runWorker, ih _ hrest]

/-- If the error channel never reports closed, the worker never
closes the pipe. -/
theorem runWorker_stuck_err (evs : List MergeEvent) : ∀ lo : Bool,
    MergeEvent.closeErr ∉ evs → (runWorker evs lo true).2 = false := by
  induction evs with
  | nil => intro lo _; simp [runWorker]
  | cons ev rest ih =>
    intro lo hmem
    have hhead : ev ≠ MergeEvent.closeErr := fun hh => hmem (hh ▸ List.mem_cons_self _ _)
    have hrest : MergeEvent.closeErr ∉ rest := fun hr => hmem (List.mem_cons_of_mem _ hr)
    cases ev with
    | line l => cases lo <;> simp [runWorker, ih _ hrest]
    | closeLog => cases lo <;> simp [runWorker, ih _ hrest]
    | err e => cases lo <;> simp [runWorker, ih _ hrest]
    | closeErr => exact absurd rfl hhead

end Collector

namespace Collector

/-- Number of non-sentinel line events in a delivery (claim C7's N). -/
def countContentLines : List MergeEvent → Nat
  | [] => 0
  | MergeEvent.line l :: rest =>
      (if l.Log = "EOFLOG" then 0 else 1) + countContentLines rest
  | _ :: rest => countContentLines rest

/-- Number of sentinel line events in a delivery (claim C7's S). -/
def countSentinels : List MergeEvent → Nat
  | [] => 0
  | MergeEvent.line l :: rest =>
      (if l.Log = "EOFLOG" then 1 else 0) + countSentinels rest
  | _ :: rest => countSentinels rest

/-- Number of error events in a delivery (claim C7's M). -/
def countErrLines : List MergeEvent → Nat
  | [] => 0
  | MergeEvent.err _ :: rest => 1 + countErrLines rest
  | _ :: rest => countErrLines rest

/-- The merged stream has one entry per received value: N content
lines, S sentinel blanks and M error lines. -/
theorem filterMap_eventFormat_length (evs : List MergeEvent) :
    (evs.filterMap eventFormat).length =
      countContentLines evs + countSentinels evs + countErrLines evs := by
  induction evs with
  | nil => rfl
  | cons ev rest ih =>
    cases ev with
    | line l =>
      by_cases hl : l.Log = "EOFLOG"
      · simp only [eventFormat, countContentLines, countSentinels, countErrLines,
          List.filterMap_cons, List.length_cons, if_pos hl, ih]
        omega
      · simp only [eventFormat, countContentLines, countSentinels, countErrLines,
          List.filterMap_cons, List.length_cons, if_neg hl, ih]
        omega
    | closeLog =>
      simp only [eventFormat, countContentLines, countSentinels, countErrLines,
        List.filterMap_cons, ih]
    | err e =>
      simp only [eventFormat, countContentLines, countSentinels, countErrLines,
        List.filterMap_cons, List.length_cons, ih]
      omega
    | closeErr =>
      simp only [eventFormat, countContentLines, countSentinels, countErrLines,
        List.filterMap_cons, ih]

end Collector

namespace Collector

/-- Spec-side line format for the amended claim C1: task and step in
brackets separated by a spaced colon, then the text and a newline. -/
def specLineFormat (task step text : String) : String :=
  "[" ++ task ++ " : " ++ step ++ "] " ++ text ++ "\n"

/-- Spec-side error format: the text followed by a newline. -/
def specErrFormat (text : String) : String := text ++ "\n"

/-- Spec-side per-event contribution to the merged stream: sentinel
lines become one blank line, other lines use `specLineFormat`, error
events use `specErrFormat`, and close markers contribute nothing. -/
def specMergeFormat : MergeEvent → Option String
  | MergeEvent.line l =>
      some (if l.Log = "EOFLOG" then "\n" else specLineFormat l.Task l.Step l.Log)
  | MergeEvent.err e => some (specErrFormat e)
  | MergeEvent.closeLog => none
  | MergeEvent.closeErr => none

/-- Code-side and spec-side per-event formats agree. -/
theorem eventFormat_eq_specMergeFormat : eventFormat = specMergeFormat := by
  funext ev
  cases ev <;> rfl

/-- The delivery of claim C1's scenario: line events
`(t1,s1,"hello")`, the sentinel, `(t1,s2,"world")`, no error events,
then both channels close. -/
def c1Events : List MergeEvent :=
  [MergeEvent.line { Task := "t1", Step := "s1", Log := "hello" },
   MergeEvent.line { Task := "t1", Step := "s1", Log := "EOFLOG" },
   MergeEvent.line { Task := "t1", Step := "s2", Log := "world" },
   MergeEvent.closeLog, MergeEvent.closeErr]

/-- Claim C1 as stated is false: on its own scenario the merged text
is not `"[t1:s1] hello\n\n[t1:s2] world\n"`, because the code formats
a line as `"[task : step] text\n"` with spaces around the colon
(`fmt.Sprintf("[%s : %s] %s\n", ...)`), not as `"[task:step] text\n"`. -/
theorem c1_merge_counterexample :
    mergedText c1Events ≠ "[t1:s1] hello\n\n[t1:s2] world\n" := by
  decide

/-- Claim C1 (amended): for every well-formed delivery the merged
stream is the interleaving, in arrival order, of lines formatted as
`"[task : step] text\n"` for line events (a blank line for the
sentinel) and `"text\n"` for error events; on the scenario's line
events the merged text equals
`"[t1 : s1] hello\n\n[t1 : s2] world\n"`. -/
theorem c1_merge_interleaving (evs : List MergeEvent)
    (h : ValidFrom true true evs) :
    (runWorker evs true true).1 = evs.filterMap specMergeFormat ∧
    mergedText c1Events = "[t1 : s1] hello\n\n[t1 : s2] world\n" := by
  constructor
  · rw [runWorker_valid h, eventFormat_eq_specMergeFormat]
  · decide

/-- Witness for C1 at the scenario delivery itself. -/
theorem c1_merge_interleaving_witness :
    (runWorker c1Events true true).1 = c1Events.filterMap specMergeFormat ∧
    mergedText c1Events = "[t1 : s1] hello\n\n[t1 : s2] world\n" :=
  c1_merge_interleaving c1Events
    (ValidFrom.line _ (ValidFrom.line _ (ValidFrom.line _
      (ValidFrom.closeLog (ValidFrom.closeErr ValidFrom.done)))))

/-- Claim C7: on every finite well-formed delivery the worker emits
the formatted entries in arrival order, exactly one entry per received
value (N content lines + S sentinel blanks + M error lines), and
closes the write side of the pipe; and the pipe is closed only when
both channels have been observed closed. -/
theorem c7_merge_completeness (evs : List MergeEvent)
    (h : ValidFrom true true evs) :
    (runWorker evs true true).1 = evs.filterMap eventFormat ∧
    (runWorker evs true true).1.length =
      countContentLines evs + countSentinels evs + countErrLines evs ∧
    (runWorker evs true true).2 = true ∧
    ∀ evs2 : List MergeEvent, (runWorker evs2 true true).2 = true →
      MergeEvent.closeLog ∈ evs2 ∧ MergeEvent.closeErr ∈ evs2 := by
  have hv := runWorker_valid h
  refine ⟨by rw [hv], ?_, by rw [hv], ?_⟩
  · rw [hv]
    exact filterMap_eventFormat_length evs
  · intro evs2 h2
    constructor
    · by_contra hn
      rw [runWorker_stuck_log evs2 true hn] at h2
      exact Bool.false_ne_true h2
    · by_contra hn
      rw [runWorker_stuck_err evs2 true hn] at h2
      exact Bool.false_ne_true h2

/-- Witness for C7: a delivery whose log channel closes first, after
which the error channel still delivers a value (closure of one source
does not stop consumption of the other). -/
theorem c7_merge_completeness_witness :
    (runWorker [MergeEvent.closeLog, MergeEvent.err "boom",
        MergeEvent.closeErr] true true).1 = ["boom\n"] ∧
    (runWorker [MergeEvent.closeLog, MergeEvent.err "boom",
        MergeEvent.closeErr] true true).2 = true := by
  have h := c7_merge_completeness
    [MergeEvent.closeLog, MergeEvent.err "boom", MergeEvent.closeErr]
    (ValidFrom.closeLog (ValidFrom.err "boom"
      (ValidFrom.closeErr ValidFrom.done)))
  exact ⟨h.1.trans (by decide), h.2.2.1⟩

end Collector

namespace Collector

/-- The fields of the database-backed `prmodels.Pipelinerun` record
that the read path consults: the persisted snapshot key `PrObject`,
the persisted log key `LogObject`, and the orchestrator correlation
identifier `CIEventID`. -/
structure Pipelinerun where
  PrObject : String
  LogObject : String
  CIEventID : String
  deriving DecidableEq, Repr

/-- The resource kinds the collector attaches to domain NotFound and
GetFailed errors (`herrors.Pipelinerun`, `herrors.PipelinerunLog`,
`herrors.PipelinerunObj`). -/
inductive ResourceKind where
  | pipelinerun
  | pipelinerunLog
  | pipelinerunObj
  deriving DecidableEq, Repr

/-- The domain error taxonomy used by the collector
(`herrors.HorizonErrNotFound`, `NewErrGetFailed`, `ErrParamInvalid`,
`ErrS3SignFailed`, `ErrS3GetObjFailed`, `ErrS3PutObjFailed`,
`ErrReadFailed`). -/
inductive CError where
  | notFound (kind : ResourceKind) (msg : String)
  | getFailed (kind : ResourceKind) (msg : String)
  | paramInvalid (msg : String)
  | s3SignFailed (msg : String)
  | s3GetFailed (msg : String)
  | s3PutFailed (msg : String)
  | readFailed (msg : String)
  deriving DecidableEq, Repr

/-- The Go type switch `perror.Cause(err).(*herrors.HorizonErrNotFound)`. -/
def isNotFoundErr : CError → Bool
  | CError.notFound _ _ => true
  | _ => false

/-- Outcome of one `s3.GetObject` backend call: the bytes, the
missing-key condition (`awserr` with code `awss3.ErrCodeNoSuchKey`,
carrying `err.Error()`), or any other backend error. -/
inductive S3GetResult where
  | ok (b : List Nat)
  | noSuchKey (msg : String)
  | otherErr (msg : String)
  deriving DecidableEq, Repr

/-- The run definition (`v1beta1.PipelineRun`) as an opaque record;
only its name is ever read by the embedded code. -/
structure V1PipelineRun where
  Name : String
  deriving DecidableEq, Repr

/-- The snapshot envelope `Object {Metadata, PipelineRun}` persisted
under the snapshot key; both fields are Go pointers, hence `Option`. -/
structure Object where
  Metadata : Option ObjectMeta
  PipelineRun : Option V1PipelineRun
  deriving DecidableEq, Repr

/-- The two live channels returned by
`tekton.GetPipelineRunLogByID`, embedded by their (eventual)
contents. -/
structure LiveChannels where
  logCh : List LogLine
  errCh : List String
  deriving DecidableEq, Repr

/-- The read-path `Log` result: either a fully materialized buffer
(`LogBytes`) or the pair of live channels (`LogChannel`/`ErrChannel`)
returned un-merged — a tagged union, never both. -/
inductive Log where
  | logBytes (b : List Nat)
  | logChannels (ch : LiveChannels)
  deriving DecidableEq, Repr

/-- Abstract backends consumed by the read path: the object store
`GetObject`, JSON deserialization of the snapshot envelope, and the
orchestrator lookups keyed by correlation identifier. -/
structure ReadEnv where
  s3Get : String → S3GetResult
  jsonParseObject : List Nat → Except String Object
  tektonStreamByID : String → Except CError LiveChannels
  tektonGetRunByID : String → Except CError V1PipelineRun

/-- Embedding of the private `getPipelineRunLog` (source lines
213-227): fetch the log object from s3, translating the missing-key
condition to `NotFound(PipelinerunLog)` and any other backend error
to `ErrS3GetObjFailed`. -/
def getPipelineRunLog (env : ReadEnv) (logObject : String) :
    Except CError (List Nat) :=
  match env.s3Get logObject with
  | S3GetResult.ok b => Except.ok b
  | S3GetResult.noSuchKey m =>
      Except.error (CError.notFound ResourceKind.pipelinerunLog m)
  | S3GetResult.otherErr m => Except.error (CError.s3GetFailed m)

/-- Embedding of the exported `GetPipelineRunLog` (source lines
187-211): if `pr.PrObject` is not empty, fetch the log bytes from s3
under `pr.LogObject` and return a buffer-only `Log`; otherwise open
the live channel pair keyed by `pr.CIEventID` and return it
un-merged.  Error wrapping (`perror.WithMessagef`) preserves the
cause, embedded as propagating the error value. -/
def GetPipelineRunLog (env : ReadEnv) (pr : Pipelinerun) :
    Except CError Log :=
  if pr.PrObject ≠ "" then
    match getPipelineRunLog env pr.LogObject with
    | Except.error e => Except.error e
    | Except.ok b => Except.ok (Log.logBytes b)
  else
    match env.tektonStreamByID pr.CIEventID with
    | Except.error e => Except.error e
    | Except.ok ch => Except.ok (Log.logChannels ch)

/-- One backend contact made by the read path, for stating which
collaborators a call touches. -/
inductive BackendCall where
  | s3 (key : String)
  | tekton (id : String)
  deriving DecidableEq, Repr

/-- Embedding of `GetPipelineRunObject` (source lines 229-247),
together with the backend calls it makes: fetch the snapshot
envelope, translating missing-key to `NotFound(PipelinerunObj)` and
other backend errors to `ErrS3GetObjFailed`; then deserialize,
translating malformed JSON to `ErrParamInvalid`. -/
def GetPipelineRunObject (env : ReadEnv) (object : String) :
    List BackendCall × Except CError Object :=
  match env.s3Get object with
  | S3GetResult.noSuchKey m =>
      ([BackendCall.s3 object],
        Except.error (CError.notFound ResourceKind.pipelinerunObj m))
  | S3GetResult.otherErr m =>
      ([BackendCall.s3 object], Except.error (CError.s3GetFailed m))
  | S3GetResult.ok b =>
      match env.jsonParseObject b with
      | Except.error m =>
          ([BackendCall.s3 object], Except.error (CError.paramInvalid m))
      | Except.ok obj => ([BackendCall.s3 object], Except.ok obj)

/-- Embedding of `GetPipelineRun` (source lines 249-272), together
with the backend calls it makes: with a persisted snapshot key, read
the envelope from s3 and return its run definition; otherwise ask the
orchestrator by correlation identifier, translating its NotFound to
`(none, no error)` and propagating any other error. -/
def GetPipelineRun (env : ReadEnv) (pr : Pipelinerun) :
    List BackendCall × Except CError (Option V1PipelineRun) :=
  if pr.PrObject ≠ "" then
    let p := GetPipelineRunObject env pr.PrObject
    match p.2 with
    | Except.error e => (p.1, Except.error e)
    | Except.ok obj => (p.1, Except.ok obj.PipelineRun)
  else
    match env.tektonGetRunByID pr.CIEventID with
    | Except.error e =>
        if isNotFoundErr e then ([BackendCall.tekton pr.CIEventID], Except.ok none)
        else ([BackendCall.tekton pr.CIEventID], Except.error e)
    | Except.ok run => ([BackendCall.tekton pr.CIEventID], Except.ok (some run))

/-- Whatever the store and parser return, `GetPipelineRunObject`
contacts exactly the store, once, at the given key. -/
theorem GetPipelineRunObject_calls (env : ReadEnv) (object : String) :
    (GetPipelineRunObject env object).1 = [BackendCall.s3 object] := by
  rcases hs : env.s3Get object with b | m | m <;>
    simp only [GetPipelineRunObject, hs]
  rcases hp : env.jsonParseObject b with m | obj <;> simp [hp]

end Collector

namespace Collector

/-- Claim C5 as stated is false: the branch condition of
`GetPipelineRunLog` is the persisted snapshot key `pr.PrObject`, not
the persisted log key.  For a run recording a log key but no snapshot
key, the code opens the live stream instead of fetching the recorded
log bytes. -/
theorem c5_getlog_counterexample :
    ¬ (∀ (env : ReadEnv) (pr : Pipelinerun), pr.LogObject ≠ "" →
        ∀ r, GetPipelineRunLog env pr = Except.ok r →
          ∃ b, r = Log.logBytes b) := by
  intro hclaim
  have h := hclaim
    { s3Get := fun _ => S3GetResult.ok [1]
      jsonParseObject := fun _ => Except.error "x"
      tektonStreamByID := fun _ => Except.ok { logCh := [], errCh := [] }
      tektonGetRunByID := fun _ =>
        Except.error (CError.notFound ResourceKind.pipelinerun "") }
    { PrObject := "", LogObject := "k", CIEventID := "id" }
    (by decide)
    (Log.logChannels { logCh := [], errCh := [] })
    rfl
  rcases h with ⟨b, hb⟩
  cases hb

/-- Claim C5 (amended): `GetPipelineRunLog` branches on whether the
run records a persisted snapshot key (`PrObject`).  When it does, the
log bytes are fetched from the store under the run's log key, a
missing object surfaces as domain NotFound(log), and the result is a
buffer-only `Log`; when it does not, a live two-channel stream keyed
by the run's correlation identifier is opened and returned un-merged. -/
theorem c5_getlog_branches (env : ReadEnv) (pr : Pipelinerun) :
    (pr.PrObject ≠ "" →
      ((∀ b, env.s3Get pr.LogObject = S3GetResult.ok b →
          GetPipelineRunLog env pr = Except.ok (Log.logBytes b)) ∧
       (∀ m, env.s3Get pr.LogObject = S3GetResult.noSuchKey m →
          GetPipelineRunLog env pr =
            Except.error (CError.notFound ResourceKind.pipelinerunLog m)) ∧
       (∀ m, env.s3Get pr.LogObject = S3GetResult.otherErr m →
          GetPipelineRunLog env pr = Except.error (CError.s3GetFailed m)))) ∧
    (pr.PrObject = "" →
      ((∀ ch, env.tektonStreamByID pr.CIEventID = Except.ok ch →
          GetPipelineRunLog env pr = Except.ok (Log.logChannels ch)) ∧
       (∀ e, env.tektonStreamByID pr.CIEventID = Except.error e →
          GetPipelineRunLog env pr = Except.error e))) := by
  constructor
  · intro hne
    refine ⟨?_, ?_, ?_⟩ <;> intro x hx <;>
      simp [GetPipelineRunLog, getPipelineRunLog, hne, hx]
  · intro heq
    refine ⟨?_, ?_⟩ <;> intro x hx <;>
      simp [GetPipelineRunLog, getPipelineRunLog, heq, hx]

/-- Concrete store for the C5 witness. -/
def c5Env : ReadEnv :=
  { s3Get := fun _ => S3GetResult.ok [9]
    jsonParseObject := fun _ => Except.error "x"
    tektonStreamByID := fun _ => Except.ok { logCh := [], errCh := [] }
    tektonGetRunByID := fun _ =>
      Except.error (CError.notFound ResourceKind.pipelinerun "") }

/-- Witness for C5: a run with a persisted snapshot key gets its log
bytes from the store. -/
theorem c5_getlog_branches_witness :
    GetPipelineRunLog c5Env
      { PrObject := "p", LogObject := "k", CIEventID := "id" } =
      Except.ok (Log.logBytes [9]) :=
  ((c5_getlog_branches c5Env
    { PrObject := "p", LogObject := "k", CIEventID := "id" }).1
    (by decide)).1 [9] rfl

/-- Claim C6: for a run with no persisted snapshot key, an
orchestrator NotFound yields `(none, no error)` while any other
orchestrator error propagates; for a run with a persisted snapshot
key, `GetPipelineRun` contacts only the store and never the
orchestrator. -/
theorem c6_getrun_fallback (env : ReadEnv) (pr : Pipelinerun) :
    (pr.PrObject = "" →
      ((∀ k m, env.tektonGetRunByID pr.CIEventID =
            Except.error (CError.notFound k m) →
          (GetPipelineRun env pr).2 = Except.ok none) ∧
       (∀ e, env.tektonGetRunByID pr.CIEventID = Except.error e →
          isNotFoundErr e = false →
          (GetPipelineRun env pr).2 = Except.error e))) ∧
    (pr.PrObject ≠ "" →
      (GetPipelineRun env pr).1 = [BackendCall.s3 pr.PrObject] ∧
      ∀ id, BackendCall.tekton id ∉ (GetPipelineRun env pr).1) := by
  constructor
  · intro heq
    constructor
    · intro k m h
      simp [GetPipelineRun, heq, h, isNotFoundErr]
    · intro e he hnf
      simp [GetPipelineRun, heq, he, hnf]
  · intro hne
    have htrace : (GetPipelineRun env pr).1 = [BackendCall.s3 pr.PrObject] := by
      rcases h2 : (GetPipelineRunObject env pr.PrObject).2 with e | obj <;>
        simp [GetPipelineRun, hne, h2, GetPipelineRunObject_calls]
    refine ⟨htrace, ?_⟩
    intro id hmem
    rw [htrace] at hmem
    simp at hmem

/-- Concrete environment for the C6 witness: the orchestrator reports
the run NotFound. -/
def c6Env : ReadEnv :=
  { s3Get := fun _ => S3GetResult.otherErr "unused"
    jsonParseObject := fun _ => Except.error "unused"
    tektonStreamByID := fun _ => Except.error (CError.s3GetFailed "unused")
    tektonGetRunByID := fun _ =>
      Except.error (CError.notFound ResourceKind.pipelinerun "gone") }

/-- Witness for C6: a run with no persisted snapshot key and an
orchestrator NotFound yields `(none, no error)`. -/
theorem c6_getrun_fallback_witness :
    (GetPipelineRun c6Env
      { PrObject := "", LogObject := "", CIEventID := "ev1" }).2 =
      Except.ok none :=
  ((c6_getrun_fallback c6Env
    { PrObject := "", LogObject := "", CIEventID := "ev1" }).1 rfl).1
    ResourceKind.pipelinerun "gone" rfl

/-- Claim C9: reading a persisted object yields the domain NotFound
error of the matching kind exactly when the backend reports the
missing-key condition, `ErrS3GetObjFailed` for any other backend
error, and `GetPipelineRunObject` yields `ErrParamInvalid` when the
fetched bytes do not deserialize as the snapshot envelope. -/
theorem c9_get_error_mapping (env : ReadEnv) (key : String) :
    ((∃ m, getPipelineRunLog env key =
        Except.error (CError.notFound ResourceKind.pipelinerunLog m)) ↔
      (∃ m, env.s3Get key = S3GetResult.noSuchKey m)) ∧
    (∀ m, env.s3Get key = S3GetResult.otherErr m →
      getPipelineRunLog env key = Except.error (CError.s3GetFailed m)) ∧
    ((∃ m, (GetPipelineRunObject env key).2 =
        Except.error (CError.notFound ResourceKind.pipelinerunObj m)) ↔
      (∃ m, env.s3Get key = S3GetResult.noSuchKey m)) ∧
    (∀ m, env.s3Get key = S3GetResult.otherErr m →
      (GetPipelineRunObject env key).2 = Except.error (CError.s3GetFailed m)) ∧
    (∀ b m, env.s3Get key = S3GetResult.ok b →
      env.jsonParseObject b = Except.error m →
      (GetPipelineRunObject env key).2 =
        Except.error (CError.paramInvalid m)) := by
  rcases hs : env.s3Get key with b | m0 | m0
  · rcases hp : env.jsonParseObject b with m1 | obj <;>
      simp [getPipelineRunLog, GetPipelineRunObject, hs, hp] <;>
      rintro b2 m rfl <;> rw [hp] <;> simp
  · simp [getPipelineRunLog, GetPipelineRunObject, hs]
  · simp [getPipelineRunLog, GetPipelineRunObject, hs]

/-- Concrete environment for the C9 witness: the store returns bytes
that fail to deserialize. -/
def c9Env : ReadEnv :=
  { s3Get := fun _ => S3GetResult.ok [1, 2]
    jsonParseObject := fun _ => Except.error "bad json"
    tektonStreamByID := fun _ => Except.error (CError.s3GetFailed "unused")
    tektonGetRunByID := fun _ => Except.error (CError.s3GetFailed "unused") }

/-- Witness for C9: malformed envelope bytes surface as
`ErrParamInvalid`. -/
theorem c9_get_error_mapping_witness :
    (GetPipelineRunObject c9Env "k").2 =
      Except.error (CError.paramInvalid "bad json") :=
  (c9_get_error_mapping c9Env "k").2.2.2.2 [1, 2] "bad json" rfl rfl

end Collector

namespace Collector

/-- Result of `collectLog` (Go `CollectLogResult`). -/
structure CollectLogResult where
  LogObject : String
  LogURL : String
  LogContent : String
  deriving DecidableEq, Repr

/-- Result of `collectObject` (Go `CollectObjectResult`). -/
structure CollectObjectResult where
  PrObject : String
  PrURL : String
  deriving DecidableEq, Repr

/-- Result of `Collect` (Go `CollectResult`). -/
structure CollectResult where
  Bucket : String
  LogObject : String
  PrObject : String
  Result : String
  StartTime : Option String
  CompletionTime : Option String
  deriving DecidableEq, Repr

/-- How `tekton.GetPipelineRunLog` fails: the k8s NotFound condition
(`k8serrors.IsNotFound`) or any other error. -/
inductive StreamFail where
  | notFound
  | other
  deriving DecidableEq, Repr

/-- Externally visible operations performed by `Collect`, in program
order: opening the log stream, signing the log URL, draining the
merge pipe, writing the log object, signing the snapshot URL, writing
the snapshot object, appending the audit line, and requesting
deletion of the live pipeline run.  An action is recorded once the
corresponding operation has completed successfully (the deletion
request once issued). -/
inductive Action where
  | getLogStream
  | signLogURL
  | readMerged
  | putLog
  | signObjURL
  | putObject
  | auditWrite
  | deleteRun
  deriving DecidableEq, Repr

/-- Outcomes the collaborators return to one `Collect` invocation, in
the order the code consults them.  `metadata` is the result of
`resolveObjMetadata` (pure, resolved in step 1), `timeStr` the
formatted current month, `bucket` the result of `s3.GetBucket`.
Option fields hold `some errMsg` on failure and `none` on success. -/
structure CollectEnv where
  metadata : ObjectMeta
  timeStr : String
  bucket : String
  streamResult : Except StreamFail (List MergeEvent)
  logSignResult : Except String String
  readResult : Option String
  logPutResult : Option String
  objMarshalResult : Except String (List Nat)
  objSignResult : Except String String
  objPutResult : Option String
  auditMarshalResult : Except String (List Nat)
  deleteResult : Except CError Unit

/-- Embedding of `collectLog` (source lines 312-368) with its action
trace: open the stream (k8s NotFound becomes `NotFound(Pipelinerun)`,
other errors `GetFailed(Pipelinerun)`), compute the log key, sign its
URL, drain the merge worker's pipe, and put the merged bytes; the
drained content is the merged text of the delivered events. -/
def collectLogM (env : CollectEnv) : List Action × Except CError CollectLogResult :=
  match env.streamResult with
  | Except.error StreamFail.notFound =>
      ([], Except.error (CError.notFound ResourceKind.pipelinerun ""))
  | Except.error StreamFail.other =>
      ([], Except.error (CError.getFailed ResourceKind.pipelinerun ""))
  | Except.ok evs =>
      match env.logSignResult with
      | Except.error m =>
          ([Action.getLogStream], Except.error (CError.s3SignFailed m))
      | Except.ok url =>
          match env.readResult with
          | some m =>
              ([Action.getLogStream, Action.signLogURL],
                Except.error (CError.readFailed m))
          | none =>
              match env.logPutResult with
              | some m =>
                  ([Action.getLogStream, Action.signLogURL, Action.readMerged],
                    Except.error (CError.s3PutFailed m))
              | none =>
                  ([Action.getLogStream, Action.signLogURL, Action.readMerged,
                      Action.putLog],
                    Except.ok
                      { LogObject := getPathForPrLog env.timeStr env.metadata
                        LogURL := url
                        LogContent := mergedText evs })

/-- Embedding of `collectObject` (source lines 279-304) with its
action trace: marshal the envelope (failure becomes
`ErrParamInvalid`), compute the snapshot key, sign its URL, and put
the envelope bytes with the resolved tags. -/
def collectObjectM (env : CollectEnv) : List Action × Except CError CollectObjectResult :=
  match env.objMarshalResult with
  | Except.error m => ([], Except.error (CError.paramInvalid m))
  | Except.ok _ =>
      match env.objSignResult with
      | Except.error m => ([], Except.error (CError.s3SignFailed m))
      | Except.ok url =>
          match env.objPutResult with
          | some m => ([Action.signObjURL], Except.error (CError.s3PutFailed m))
          | none =>
              ([Action.signObjURL, Action.putObject],
                Except.ok
                  { PrObject := getPathForPr env.timeStr env.metadata
                    PrURL := url })

/-- Embedding of `Collect` (source lines 132-185) with its action
trace: collect the log, collect the snapshot, marshal and truncate
the audit record and append it, build the `CollectResult` from the
already-resolved metadata, then request deletion of the live
pipeline run; a deletion NotFound is swallowed, any other deletion
error is returned as the failure. -/
def collect (env : CollectEnv) : List Action × Except CError CollectResult :=
  let pLog := collectLogM env
  match pLog.2 with
  | Except.error e => (pLog.1, Except.error e)
  | Except.ok logRes =>
      let pObj := collectObjectM env
      match pObj.2 with
      | Except.error e => (pLog.1 ++ pObj.1, Except.error e)
      | Except.ok objRes =>
          match env.auditMarshalResult with
          | Except.error m =>
              (pLog.1 ++ pObj.1, Except.error (CError.paramInvalid m))
          | Except.ok _ =>
              let res : CollectResult :=
                { Bucket := env.bucket
                  LogObject := logRes.LogObject
                  PrObject := objRes.PrObject
                  Result := env.metadata.PipelineRun.Result
                  StartTime := env.metadata.PipelineRun.StartTime
                  CompletionTime := env.metadata.PipelineRun.CompletionTime }
              let tr := pLog.1 ++ pObj.1 ++ [Action.auditWrite, Action.deleteRun]
              match env.deleteResult with
              | Except.ok _ => (tr, Except.ok res)
              | Except.error e =>
                  if isNotFoundErr e then (tr, Except.ok res)
                  else (tr, Except.error e)

/-- Steps 1-5 of `Collect` succeed: the log stream opens, both URL
signings, the pipe drain, both puts and both serializations succeed. -/
def stepsSucceed (env : CollectEnv) : Prop :=
  (∃ evs, env.streamResult = Except.ok evs) ∧
  (∃ u, env.logSignResult = Except.ok u) ∧
  env.readResult = none ∧
  env.logPutResult = none ∧
  (∃ b, env.objMarshalResult = Except.ok b) ∧
  (∃ u, env.objSignResult = Except.ok u) ∧
  env.objPutResult = none ∧
  (∃ b, env.auditMarshalResult = Except.ok b)

/-- The `CollectResult` assembled in step 5: bucket, both computed
keys, and the run's result/start/completion fields from the resolved
metadata. -/
def step5Result (env : CollectEnv) : CollectResult :=
  { Bucket := env.bucket
    LogObject := getPathForPrLog env.timeStr env.metadata
    PrObject := getPathForPr env.timeStr env.metadata
    Result := env.metadata.PipelineRun.Result
    StartTime := env.metadata.PipelineRun.StartTime
    CompletionTime := env.metadata.PipelineRun.CompletionTime }

end Collector

namespace Collector

/-- Claim C4: when steps 1-5 succeed, a deletion reporting NotFound is
swallowed and `Collect` returns the step-5 `CollectResult` unchanged
with no error (the same value a successful deletion returns), while
any other deletion error is returned as the failure. -/
theorem c4_delete_idempotent (env : CollectEnv) (h : stepsSucceed env) :
    (∀ u, env.deleteResult = Except.ok u →
      (collect env).2 = Except.ok (step5Result env)) ∧
    (∀ k m, env.deleteResult = Except.error (CError.notFound k m) →
      (collect env).2 = Except.ok (step5Result env)) ∧
    (∀ e, env.deleteResult = Except.error e → isNotFoundErr e = false →
      (collect env).2 = Except.error e) := by
  obtain ⟨⟨evs, hst⟩, ⟨u1, hsig⟩, hread, hput, ⟨b1, hmar⟩, ⟨u2, hsig2⟩,
    hput2, ⟨b2, hmar2⟩⟩ := h
  refine ⟨?_, ?_, ?_⟩
  · intro u hdel
    simp [collect, collectLogM, collectObjectM, step5Result, hst, hsig, hread,
      hput, hmar, hsig2, hput2, hmar2, hdel]
  · intro k m hdel
    simp [collect, collectLogM, collectObjectM, step5Result, isNotFoundErr,
      hst, hsig, hread, hput, hmar, hsig2, hput2, hmar2, hdel]
  · intro e hdel hnf
    simp [collect, collectLogM, collectObjectM, step5Result, hst, hsig, hread,
      hput, hmar, hsig2, hput2, hmar2, hdel, hnf]

/-- Concrete environment for the C4 witness: every step succeeds and
the deletion reports NotFound. -/
def c4Env : CollectEnv :=
  { metadata := scenarioMeta
    timeStr := "202401"
    bucket := "bkt"
    streamResult := Except.ok [MergeEvent.closeLog, MergeEvent.closeErr]
    logSignResult := Except.ok "https://log"
    readResult := none
    logPutResult := none
    objMarshalResult := Except.ok [123]
    objSignResult := Except.ok "https://obj"
    objPutResult := none
    auditMarshalResult := Except.ok [125]
    deleteResult := Except.error (CError.notFound ResourceKind.pipelinerun "gone") }

/-- Witness for C4: on the concrete all-success environment whose
deletion reports NotFound, `Collect` returns the step-5 result. -/
theorem c4_delete_idempotent_witness :
    (collect c4Env).2 = Except.ok (step5Result c4Env) :=
  (c4_delete_idempotent c4Env
    ⟨⟨_, rfl⟩, ⟨_, rfl⟩, rfl, rfl, ⟨_, rfl⟩, ⟨_, rfl⟩, rfl, ⟨_, rfl⟩⟩).2.1
    ResourceKind.pipelinerun "gone" rfl

/-- Claim C8: whenever `Collect` issues the deletion request, both the
log put and the snapshot put have already succeeded: the deletion is
the last action of the trace and both put actions precede it. -/
theorem c8_persist_before_delete (env : CollectEnv) :
    Action.deleteRun ∈ (collect env).1 →
    ∃ pre, (collect env).1 = pre ++ [Action.deleteRun] ∧
      Action.putLog ∈ pre ∧ Action.putObject ∈ pre := by
  intro hmem
  rcases hst : env.streamResult with f | evs
  · rcases f <;> simp [collect, collectLogM, hst] at hmem
  rcases hsig : env.logSignResult with m | u
  · simp [collect, collectLogM, hst, hsig] at hmem
  rcases hread : env.readResult with _ | m
  case some => simp [collect, collectLogM, hst, hsig, hread] at hmem
  rcases hput : env.logPutResult with _ | m
  case some => simp [collect, collectLogM, hst, hsig, hread, hput] at hmem
  rcases hmar : env.objMarshalResult with m | b
  · simp [collect, collectLogM, collectObjectM, hst, hsig, hread, hput,
      hmar] at hmem
  rcases hsig2 : env.objSignResult with m | u2
  · simp [collect, collectLogM, collectObjectM, hst, hsig, hread, hput,
      hmar, hsig2] at hmem
  rcases hput2 : env.objPutResult with _ | m
  case some =>
    simp [collect, collectLogM, collectObjectM, hst, hsig, hread, hput,
      hmar, hsig2, hput2] at hmem
  rcases hmar2 : env.auditMarshalResult with m | b2
  · simp [collect, collectLogM, collectObjectM, hst, hsig, hread, hput,
      hmar, hsig2, hput2, hmar2] at hmem
  refine ⟨[Action.getLogStream, Action.signLogURL, Action.readMerged,
    Action.putLog, Action.signObjURL, Action.putObject, Action.auditWrite],
    ?_, by simp, by simp⟩
  rcases hdel : env.deleteResult with e | u3
  · by_cases hnf : isNotFoundErr e <;>
      simp [collect, collectLogM, collectObjectM, hst, hsig, hread, hput,
        hmar, hsig2, hput2, hmar2, hdel, hnf]
  · simp [collect, collectLogM, collectObjectM, hst, hsig, hread, hput,
      hmar, hsig2, hput2, hmar2, hdel]

/-- Concrete environment for the C8 witness: every collaborator
succeeds. -/
def c8Env : CollectEnv :=
  { metadata := scenarioMeta
    timeStr := "202402"
    bucket := "bkt2"
    streamResult := Except.ok [MergeEvent.closeLog, MergeEvent.closeErr]
    logSignResult := Except.ok "https://log2"
    readResult := none
    logPutResult := none
    objMarshalResult := Except.ok [1]
    objSignResult := Except.ok "https://obj2"
    objPutResult := none
    auditMarshalResult := Except.ok [2]
    deleteResult := Except.ok () }

/-- Witness for C8: on the concrete all-success environment the trace
ends in the deletion, preceded by both puts. -/
theorem c8_persist_before_delete_witness :
    ∃ pre, (collect c8Env).1 = pre ++ [Action.deleteRun] ∧
      Action.putLog ∈ pre ∧ Action.putObject ∈ pre :=
  c8_persist_before_delete c8Env (by decide)

end Collector
